import Mathlib

/-!
Verification of the lap/stint reconciliation routine `prepare_driver_laps`
of `fastf1_race_util.py`, and of the data side effect of
`plot_lap_time_distributions`, over a shallow embedding of the code.

A lap table (`session.laps.pick_drivers(driver).pick_quicklaps()`) is
modelled as a list of records holding the columns the routine reads or
writes (`Driver`, `LapNumber`, `Stint`); the `stints` DataFrame as a list
of records with the columns the routine reads (`Driver`, `StintLength`).
Other columns are carried by neither, since the routine never touches them.
-/

namespace FastF1RaceUtil

/-- One row of a driver's lap table.  `stint = none` models an unset/null
`Stint` column (the column is absent before assignment). -/
structure LapRecord where
  driver : String
  lapNumber : Nat
  stint : Option Nat
deriving DecidableEq

/-- One row of the `stints` DataFrame passed to `prepare_driver_laps`. -/
structure StintRecord where
  driver : String
  stintLength : Nat
deriving DecidableEq

/-- `stints.loc[stints["Driver"] == driver]["StintLength"].tolist()`
(source lines 211-212): the stint lengths recorded for `driver`, in
stored order. -/
def stintLengthsFor (stints : List StintRecord) (driver : String) : List Nat :=
  (stints.filter fun r => r.driver == driver).map fun r => r.stintLength

/-- The stint-assignment loop of `prepare_driver_laps` (source lines
215-219): `start_lap = 1` at entry; for each `stint_number, stint_length`
in `enumerate(stint_lengths, start=1)`, set `end_lap = start_lap +
stint_length - 1`, write `stint_number` into the `Stint` column of every
lap whose `LapNumber` lies in `[start_lap, end_lap]`, and advance
`start_lap = end_lap + 1`. -/
def assignStintsLoop (laps : List LapRecord) (lengths : List Nat)
    (startLap stintNumber : Nat) : List LapRecord :=
  match lengths with
  | [] => laps
  | L :: rest =>
    let endLap := startLap + L - 1
    assignStintsLoop
      (laps.map fun lap =>
        if startLap ≤ lap.lapNumber ∧ lap.lapNumber ≤ endLap then
          { lap with stint := some stintNumber }
        else lap)
      rest (endLap + 1) (stintNumber + 1)

/-- The body of the per-driver loop of `prepare_driver_laps` (source lines
207-219): fetch the driver's pre-filtered laps from the lap source
(`session.laps.pick_drivers(driver).pick_quicklaps().reset_index(drop=True)`,
a lookup this routine treats as a black box), overwrite the `Driver`
column with the driver code, and run the stint-assignment loop with
`start_lap = 1` and stint numbers starting at 1. -/
def prepareOneDriver (lapSource : String → List LapRecord)
    (stints : List StintRecord) (driver : String) : List LapRecord :=
  assignStintsLoop
    ((lapSource driver).map fun lap => { lap with driver := driver })
    (stintLengthsFor stints driver) 1 1

/-- The combined frame `prepare_driver_laps(session, drivers, stints)`
(source lines 193-224) returns when the concatenation at line 224
succeeds: run the per-driver body for each driver in order, accumulate
the per-driver frames in a list, and concatenate them.  The raising
behavior of `pd.concat` itself on an empty accumulated list is kept in
`prepare_driver_laps_checked` below. -/
def prepare_driver_laps (lapSource : String → List LapRecord)
    (drivers : List String) (stints : List StintRecord) : List LapRecord :=
  (drivers.map fun driver => prepareOneDriver lapSource stints driver).flatten

/-- `pd.concat(objs, ignore_index=True)` (source line 224): pandas raises
`ValueError: No objects to concatenate` when `objs` is empty, and
otherwise concatenates the frames in order. -/
def pd_concat (frames : List (List LapRecord)) : Except String (List LapRecord) :=
  match frames with
  | [] => Except.error "No objects to concatenate"
  | _ => Except.ok frames.flatten

/-- `prepare_driver_laps` with the fallible `pd.concat` of line 224 kept:
on an empty `drivers` sequence the loop never runs, `driver_laps_list`
stays empty and the concat raises; otherwise the combined frame is
returned. -/
def prepare_driver_laps_checked (lapSource : String → List LapRecord)
    (drivers : List String) (stints : List StintRecord) :
    Except String (List LapRecord) :=
  pd_concat (drivers.map fun driver => prepareOneDriver lapSource stints driver)

/-- The `[start_lap, end_lap]` ranges computed by the stint-assignment
loop (source lines 215-219) when started at `startLap`, one pair per
stint length, in loop order. -/
def stintRanges (lengths : List Nat) (startLap : Nat) : List (Nat × Nat) :=
  match lengths with
  | [] => []
  | L :: rest =>
    let endLap := startLap + L - 1
    (startLap, endLap) :: stintRanges rest (endLap + 1)

/-- The effect of the full stint-assignment loop on a single lap record:
each pass rewrites the record's stint field when its lap number falls in
the pass's `[start_lap, end_lap]` window.  `assignStintsLoop` is the
map of this function over the lap list (`assignStintsLoop_eq_map`). -/
def applyStints (lengths : List Nat) (startLap stintNumber : Nat)
    (lap : LapRecord) : LapRecord :=
  match lengths with
  | [] => lap
  | L :: rest =>
    let endLap := startLap + L - 1
    applyStints rest (endLap + 1) (stintNumber + 1)
      (if startLap ≤ lap.lapNumber ∧ lap.lapNumber ≤ endLap then
        { lap with stint := some stintNumber }
      else lap)

/-- The stint number the loop assigns to lap number `n`, as a recursive
function: the index of the first `[start_lap, end_lap]` window containing
`n`, or `none` when no window contains it. -/
def stintFor (lengths : List Nat) (startLap stintNumber n : Nat) : Option Nat :=
  match lengths with
  | [] => none
  | L :: rest =>
    let endLap := startLap + L - 1
    if startLap ≤ n ∧ n ≤ endLap then some stintNumber
    else stintFor rest (endLap + 1) (stintNumber + 1) n

/-- The largest lap number appearing in a lap table (0 when empty). -/
def maxLapNumber (laps : List LapRecord) : Nat :=
  (laps.map fun lap => lap.lapNumber).foldr max 0

/-- Concrete lap source of the spec's test scenario: driver "A" has laps
1-5, driver "B" has laps 1-3, stint numbers unset, durations irrelevant. -/
def exampleLapSource : String → List LapRecord := fun d =>
  if d = "A" then
    [⟨"A", 1, none⟩, ⟨"A", 2, none⟩, ⟨"A", 3, none⟩, ⟨"A", 4, none⟩, ⟨"A", 5, none⟩]
  else if d = "B" then
    [⟨"B", 1, none⟩, ⟨"B", 2, none⟩, ⟨"B", 3, none⟩]
  else []

/-- Concrete stints frame of the spec's test scenario: "A" has stints of
length 3 and 2, "B" one stint of length 3. -/
def exampleStints : List StintRecord :=
  [⟨"A", 3⟩, ⟨"A", 2⟩, ⟨"B", 3⟩]

/-- One iteration of the per-driver loop of `prepare_driver_laps`, with
the `stints` frame threaded through as explicit state so that a write the
body performed on it would appear in the returned state.  The body only
reads `stints` (source lines 211-212: `stints.loc[...]`, `.tolist()`),
so the state component is returned as received. -/
def prepareStep (lapSource : String → List LapRecord)
    (acc : List (List LapRecord) × List StintRecord) (driver : String) :
    List (List LapRecord) × List StintRecord :=
  let driver_laps := (lapSource driver).map fun lap => { lap with driver := driver }
  (acc.1 ++ [assignStintsLoop driver_laps (stintLengthsFor acc.2 driver) 1 1], acc.2)

/-- State-passing rendering of `prepare_driver_laps`: the accumulated
frame list and the `stints` frame evolve through the driver loop, and the
call returns the concatenated laps together with the `stints` state
observable after the call. -/
def prepare_driver_laps_tracked (lapSource : String → List LapRecord)
    (drivers : List String) (stints : List StintRecord) :
    List LapRecord × List StintRecord :=
  let final := drivers.foldl (prepareStep lapSource) ([], stints)
  (final.1.flatten, final.2)

/-- A pandas `Timedelta`: an integer count of nanoseconds. -/
structure Timedelta where
  ns : Int
deriving DecidableEq

/-- `Timedelta.total_seconds()`: the duration in seconds.  The pandas
original returns a machine float; the embedding computes the quotient
exactly, which is faithful for the column-presence property verified
here. -/
def Timedelta.total_seconds (t : Timedelta) : Rat := (t.ns : Rat) / 1000000000

/-- The `driver_laps` DataFrame handed to `plot_lap_time_distributions`:
the `LapTime` column, the `LapTime (s)` column when present, and the
names of the remaining columns (which lines 68-70 never touch). -/
structure DriverLapsFrame where
  lapTime : List Timedelta
  lapTimeSeconds : Option (List Rat)
  otherColumns : List String
deriving DecidableEq

/-- `driver_laps.columns`: the column names of the frame. -/
def DriverLapsFrame.columns (f : DriverLapsFrame) : List String :=
  ("LapTime" :: (match f.lapTimeSeconds with
    | some _ => ["LapTime (s)"]
    | none => [])) ++ f.otherColumns

/-- The data effect of `plot_lap_time_distributions` on its `driver_laps`
argument (source lines 68-70): `if "LapTime (s)" not in driver_laps.columns:
driver_laps["LapTime (s)"] = driver_laps["LapTime"].dt.total_seconds()`.
The in-place pandas column assignment is rendered as the returned frame
state; the remainder of the function only draws. -/
def plot_lap_time_distributions_data (driver_laps : DriverLapsFrame) :
    DriverLapsFrame :=
  if "LapTime (s)" ∉ driver_laps.columns then
    { driver_laps with
      lapTimeSeconds := some (driver_laps.lapTime.map Timedelta.total_seconds) }
  else driver_laps

/-- Concrete frame without a `LapTime (s)` column, used to witness C10. -/
def exampleFrame : DriverLapsFrame :=
  ⟨[⟨90000000000⟩, ⟨91500000000⟩], none, ["Driver", "Compound", "LapNumber"]⟩

/- ------------------------------------------------------------------ -/
/- Supporting lemmas about the stint-assignment loop.                  -/
/- ------------------------------------------------------------------ -/

theorem assignStintsLoop_eq_map (lengths : List Nat) :
    ∀ (laps : List LapRecord) (s k : Nat),
      assignStintsLoop laps lengths s k = laps.map (applyStints lengths s k) := by
  induction lengths with
  | nil =>
    intro laps s k
    simp [assignStintsLoop, applyStints]
  | cons L rest ih =>
    intro laps s k
    simp only [assignStintsLoop, applyStints]
    rw [ih, List.map_map]
    rfl

theorem applyStints_lapNumber (lengths : List Nat) :
    ∀ (s k : Nat) (lap : LapRecord),
      (applyStints lengths s k lap).lapNumber = lap.lapNumber := by
  induction lengths with
  | nil => intro s k lap; rfl
  | cons L rest ih =>
    intro s k lap
    simp only [applyStints]
    rw [ih]
    split <;> rfl

theorem applyStints_driver (lengths : List Nat) :
    ∀ (s k : Nat) (lap : LapRecord),
      (applyStints lengths s k lap).driver = lap.driver := by
  induction lengths with
  | nil => intro s k lap; rfl
  | cons L rest ih =>
    intro s k lap
    simp only [applyStints]
    rw [ih]
    split <;> rfl

theorem applyStints_of_lt (lengths : List Nat) :
    ∀ (s k : Nat) (lap : LapRecord), 0 < s → lap.lapNumber < s →
      applyStints lengths s k lap = lap := by
  induction lengths with
  | nil => intro s k lap _ _; rfl
  | cons L rest ih =>
    intro s k lap hs hn
    simp only [applyStints]
    rw [if_neg (by omega)]
    exact ih (s + L - 1 + 1) (k + 1) lap (by omega) (by omega)

theorem applyStints_stint (lengths : List Nat) :
    ∀ (s k : Nat) (lap : LapRecord), 0 < s →
      (applyStints lengths s k lap).stint =
        (stintFor lengths s k lap.lapNumber).elim lap.stint some := by
  induction lengths with
  | nil => intro s k lap _; rfl
  | cons L rest ih =>
    intro s k lap hs
    simp only [applyStints, stintFor]
    by_cases hc : s ≤ lap.lapNumber ∧ lap.lapNumber ≤ s + L - 1
    · rw [if_pos hc, if_pos hc]
      rw [applyStints_of_lt rest (s + L - 1 + 1) (k + 1)
        { lap with stint := some k } (by omega)
        (by show lap.lapNumber < s + L - 1 + 1; omega)]
      rfl
    · rw [if_neg hc, if_neg hc]
      exact ih (s + L - 1 + 1) (k + 1) lap (by omega)

theorem stintFor_ge (lengths : List Nat) :
    ∀ (s k n j : Nat), stintFor lengths s k n = some j → k ≤ j := by
  induction lengths with
  | nil => intro s k n j h; exact absurd h (by simp [stintFor])
  | cons L rest ih =>
    intro s k n j h
    simp only [stintFor] at h
    by_cases hc : s ≤ n ∧ n ≤ s + L - 1
    · rw [if_pos hc] at h
      cases h
      exact Nat.le_refl _
    · rw [if_neg hc] at h
      exact Nat.le_of_succ_le (ih (s + L - 1 + 1) (k + 1) n j h)

theorem stintFor_none_of_lt (lengths : List Nat) :
    ∀ (s k n : Nat), 0 < s → n < s → stintFor lengths s k n = none := by
  induction lengths with
  | nil => intro s k n _ _; rfl
  | cons L rest ih =>
    intro s k n hs hn
    simp only [stintFor]
    rw [if_neg (by omega)]
    exact ih (s + L - 1 + 1) (k + 1) n (by omega) (by omega)

theorem stintFor_isSome (lengths : List Nat) :
    ∀ (s k n : Nat), 0 < s → s ≤ n → n < s + lengths.sum →
      ∃ j, stintFor lengths s k n = some j := by
  induction lengths with
  | nil =>
    intro s k n _ hle hlt
    simp only [List.sum_nil, Nat.add_zero] at hlt
    omega
  | cons L rest ih =>
    intro s k n hs hle hlt
    simp only [List.sum_cons] at hlt
    simp only [stintFor]
    by_cases hc : s ≤ n ∧ n ≤ s + L - 1
    · exact ⟨k, if_pos hc⟩
    · rw [if_neg hc]
      exact ih (s + L - 1 + 1) (k + 1) n (by omega) (by omega) (by omega)

theorem stintFor_mono (lengths : List Nat) :
    ∀ (s k n n' j j' : Nat), 0 < s → n ≤ n' →
      stintFor lengths s k n = some j → stintFor lengths s k n' = some j' →
      j ≤ j' := by
  induction lengths with
  | nil => intro s k n n' j j' _ _ h; exact absurd h (by simp [stintFor])
  | cons L rest ih =>
    intro s k n n' j j' hs hnn hj hj'
    simp only [stintFor] at hj hj'
    by_cases hc : s ≤ n ∧ n ≤ s + L - 1
    · rw [if_pos hc] at hj
      cases hj
      by_cases hc' : s ≤ n' ∧ n' ≤ s + L - 1
      · rw [if_pos hc'] at hj'
        cases hj'
        exact Nat.le_refl _
      · rw [if_neg hc'] at hj'
        exact Nat.le_of_succ_le (stintFor_ge rest (s + L - 1 + 1) (k + 1) n' j' hj')
    · rw [if_neg hc] at hj
      by_cases hlt : n < s
      · rw [stintFor_none_of_lt rest (s + L - 1 + 1) (k + 1) n (by omega) (by omega)] at hj
        cases hj
      · have hc' : ¬(s ≤ n' ∧ n' ≤ s + L - 1) := by omega
        rw [if_neg hc'] at hj'
        exact ih (s + L - 1 + 1) (k + 1) n n' j j' (by omega) hnn hj hj'

theorem lapNumber_le_maxLapNumber :
    ∀ (laps : List LapRecord), ∀ lap ∈ laps, lap.lapNumber ≤ maxLapNumber laps := by
  intro laps
  induction laps with
  | nil => intro lap h; cases h
  | cons x xs ih =>
    intro lap h
    rcases List.mem_cons.mp h with h | h
    · subst h
      exact Nat.le_max_left _ _
    · exact Nat.le_trans (ih lap h) (Nat.le_max_right _ _)

theorem prepareOneDriver_eq_map (lapSource : String → List LapRecord)
    (stints : List StintRecord) (d : String) :
    prepareOneDriver lapSource stints d =
      (lapSource d).map fun lap =>
        applyStints (stintLengthsFor stints d) 1 1 { lap with driver := d } := by
  unfold prepareOneDriver
  rw [assignStintsLoop_eq_map, List.map_map]
  rfl

theorem prepareOneDriver_length (lapSource : String → List LapRecord)
    (stints : List StintRecord) (d : String) :
    (prepareOneDriver lapSource stints d).length = (lapSource d).length := by
  rw [prepareOneDriver_eq_map, List.length_map]

theorem prepare_driver_laps_checked_ok (lapSource : String → List LapRecord)
    (drivers : List String) (stints : List StintRecord) (hne : drivers ≠ []) :
    prepare_driver_laps_checked lapSource drivers stints =
      Except.ok (prepare_driver_laps lapSource drivers stints) := by
  cases drivers with
  | nil => exact absurd rfl hne
  | cons d ds => rfl

theorem stintFor_none_of_ge (lengths : List Nat) :
    ∀ (s k n : Nat), 0 < s → s + lengths.sum ≤ n →
      stintFor lengths s k n = none := by
  induction lengths with
  | nil => intro s k n _ _; rfl
  | cons L rest ih =>
    intro s k n hs hn
    simp only [List.sum_cons] at hn
    simp only [stintFor]
    rw [if_neg (by omega)]
    exact ih (s + L - 1 + 1) (k + 1) n (by omega) (by omega)

theorem stintRanges_bounds (lengths : List Nat) :
    ∀ (s : Nat), 0 < s → (∀ L ∈ lengths, 0 < L) →
      ∀ r ∈ stintRanges lengths s, s ≤ r.1 ∧ r.1 ≤ r.2 := by
  induction lengths with
  | nil => intro s _ _ r hr; cases hr
  | cons L rest ih =>
    intro s hs hpos r hr
    simp only [stintRanges] at hr
    rcases List.mem_cons.mp hr with h | h
    · subst h
      have hL : 0 < L := hpos L (List.mem_cons_self _ _)
      exact ⟨Nat.le_refl s, by show s ≤ s + L - 1; omega⟩
    · have hb := ih (s + L - 1 + 1) (by omega)
        (fun L' h' => hpos L' (List.mem_cons_of_mem _ h')) r h
      exact ⟨by omega, hb.2⟩

theorem stintRanges_pairwise (lengths : List Nat) :
    ∀ (s : Nat), 0 < s → (∀ L ∈ lengths, 0 < L) →
      List.Pairwise (fun r r' : Nat × Nat => r.2 < r'.1 ∧ r.1 < r'.1)
        (stintRanges lengths s) := by
  induction lengths with
  | nil => intro s _ _; exact List.Pairwise.nil
  | cons L rest ih =>
    intro s hs hpos
    have hL : 0 < L := hpos L (List.mem_cons_self _ _)
    simp only [stintRanges]
    refine List.Pairwise.cons ?_ ?_
    · intro r' hr'
      have hb := stintRanges_bounds rest (s + L - 1 + 1) (by omega)
        (fun L' h' => hpos L' (List.mem_cons_of_mem _ h')) r' hr'
      exact ⟨by show s + L - 1 < r'.1; omega, by show s < r'.1; omega⟩
    · exact ih (s + L - 1 + 1) (by omega)
        (fun L' h' => hpos L' (List.mem_cons_of_mem _ h'))

theorem stintFor_mem_stintRanges (lengths : List Nat) :
    ∀ (s k n j : Nat), stintFor lengths s k n = some j →
      ∃ r ∈ stintRanges lengths s, r.1 ≤ n ∧ n ≤ r.2 := by
  induction lengths with
  | nil => intro s k n j h; exact absurd h (by simp [stintFor])
  | cons L rest ih =>
    intro s k n j h
    simp only [stintFor] at h
    simp only [stintRanges]
    by_cases hc : s ≤ n ∧ n ≤ s + L - 1
    · exact ⟨(s, s + L - 1), List.mem_cons_self _ _, hc.1, hc.2⟩
    · rw [if_neg hc] at h
      obtain ⟨r, hr, h1, h2⟩ := ih (s + L - 1 + 1) (k + 1) n j h
      exact ⟨r, List.mem_cons_of_mem _ hr, h1, h2⟩

theorem mem_prepare_driver_laps (lapSource : String → List LapRecord)
    (drivers : List String) (stints : List StintRecord) (lap : LapRecord) :
    lap ∈ prepare_driver_laps lapSource drivers stints →
    ∃ d ∈ drivers, lap ∈ prepareOneDriver lapSource stints d := by
  intro h
  unfold prepare_driver_laps at h
  rw [List.mem_flatten] at h
  obtain ⟨blk, hblk, hlap⟩ := h
  rw [List.mem_map] at hblk
  obtain ⟨d, hd, rfl⟩ := hblk
  exact ⟨d, hd, hlap⟩

theorem prepareOneDriver_driver (lapSource : String → List LapRecord)
    (stints : List StintRecord) (d : String) :
    ∀ lap ∈ prepareOneDriver lapSource stints d, lap.driver = d := by
  intro lap hmem
  rw [prepareOneDriver_eq_map] at hmem
  obtain ⟨lap0, _, rfl⟩ := List.mem_map.mp hmem
  rw [applyStints_driver]

theorem stintLengthsFor_eq_nil (stints : List StintRecord) (d : String)
    (h1 : ∀ r ∈ stints, r.driver ≠ d) : stintLengthsFor stints d = [] := by
  have hf : stints.filter (fun r => r.driver == d) = [] := by
    rw [List.filter_eq_nil_iff]
    intro r hr
    simp only [beq_iff_eq]
    exact h1 r hr
  rw [stintLengthsFor, hf]
  rfl

theorem foldl_prepareStep (lapSource : String → List LapRecord) :
    ∀ (drivers : List String) (acc : List (List LapRecord))
      (stints : List StintRecord),
      drivers.foldl (prepareStep lapSource) (acc, stints) =
        (acc ++ drivers.map fun d => prepareOneDriver lapSource stints d, stints) := by
  intro drivers
  induction drivers with
  | nil => intro acc stints; simp
  | cons d ds ih =>
    intro acc stints
    rw [List.foldl_cons]
    have hstep : prepareStep lapSource (acc, stints) d =
        (acc ++ [prepareOneDriver lapSource stints d], stints) := rfl
    rw [hstep, ih]
    simp

/- ------------------------------------------------------------------ -/
/- Claims.                                                             -/
/- ------------------------------------------------------------------ -/

/-- C1: for every driver whose stint lengths are positive and sum to at
least the driver's maximum lap number, `prepare_driver_laps` contains the
driver's block, every lap of the block numbered at least 1 (hence in
1..N, N being the maximum) carries exactly one stint number (the `Stint`
field holds a single `some` value), and assigned stint numbers are
non-decreasing as lap number increases. -/
theorem claim_C1 (lapSource : String → List LapRecord) (drivers : List String)
    (stints : List StintRecord) (d : String) (hd : d ∈ drivers)
    (hpos : ∀ L ∈ stintLengthsFor stints d, 0 < L)
    (hsum : maxLapNumber (lapSource d) ≤ (stintLengthsFor stints d).sum) :
    (∃ pre post, prepare_driver_laps lapSource drivers stints =
        pre ++ prepareOneDriver lapSource stints d ++ post) ∧
    (∀ lap ∈ prepareOneDriver lapSource stints d,
      1 ≤ lap.lapNumber → ∃ i, lap.stint = some i) ∧
    (∀ lap ∈ prepareOneDriver lapSource stints d,
      ∀ lap' ∈ prepareOneDriver lapSource stints d,
      1 ≤ lap.lapNumber → lap.lapNumber ≤ lap'.lapNumber →
      ∀ i i', lap.stint = some i → lap'.stint = some i' → i ≤ i') := by
  refine ⟨?_, ?_, ?_⟩
  · obtain ⟨s1, s2, rfl⟩ := List.append_of_mem hd
    refine ⟨(s1.map fun d0 => prepareOneDriver lapSource stints d0).flatten,
            (s2.map fun d0 => prepareOneDriver lapSource stints d0).flatten, ?_⟩
    simp [prepare_driver_laps]
  · intro lap hmem h1
    rw [prepareOneDriver_eq_map] at hmem
    obtain ⟨lap0, hlap0, rfl⟩ := List.mem_map.mp hmem
    have hnum : (applyStints (stintLengthsFor stints d) 1 1
        { lap0 with driver := d }).lapNumber = lap0.lapNumber :=
      applyStints_lapNumber _ _ _ _
    rw [hnum] at h1
    have hle := lapNumber_le_maxLapNumber (lapSource d) lap0 hlap0
    obtain ⟨j, hj⟩ := stintFor_isSome (stintLengthsFor stints d) 1 1
      lap0.lapNumber Nat.one_pos h1 (by omega)
    refine ⟨j, ?_⟩
    rw [applyStints_stint _ 1 1 _ Nat.one_pos]
    have hrw : ({ lap0 with driver := d } : LapRecord).lapNumber = lap0.lapNumber := rfl
    rw [hrw, hj]
    rfl
  · intro lap hmem lap' hmem' h1 hnn i i' hi hi'
    rw [prepareOneDriver_eq_map] at hmem hmem'
    obtain ⟨lap0, hlap0, rfl⟩ := List.mem_map.mp hmem
    obtain ⟨lap0', hlap0', rfl⟩ := List.mem_map.mp hmem'
    have hnum : (applyStints (stintLengthsFor stints d) 1 1
        { lap0 with driver := d }).lapNumber = lap0.lapNumber :=
      applyStints_lapNumber _ _ _ _
    have hnum' : (applyStints (stintLengthsFor stints d) 1 1
        { lap0' with driver := d }).lapNumber = lap0'.lapNumber :=
      applyStints_lapNumber _ _ _ _
    rw [hnum] at h1
    rw [hnum, hnum'] at hnn
    have hle := lapNumber_le_maxLapNumber (lapSource d) lap0 hlap0
    have hle' := lapNumber_le_maxLapNumber (lapSource d) lap0' hlap0'
    obtain ⟨j, hj⟩ := stintFor_isSome (stintLengthsFor stints d) 1 1
      lap0.lapNumber Nat.one_pos h1 (by omega)
    obtain ⟨j', hj'⟩ := stintFor_isSome (stintLengthsFor stints d) 1 1
      lap0'.lapNumber Nat.one_pos (by omega) (by omega)
    rw [applyStints_stint _ 1 1 _ Nat.one_pos] at hi hi'
    have hrw : ({ lap0 with driver := d } : LapRecord).lapNumber = lap0.lapNumber := rfl
    have hrw' : ({ lap0' with driver := d } : LapRecord).lapNumber = lap0'.lapNumber := rfl
    rw [hrw, hj] at hi
    rw [hrw', hj'] at hi'
    have hij : j = i := Option.some.inj hi
    have hij' : j' = i' := Option.some.inj hi'
    rw [← hij, ← hij']
    exact stintFor_mono (stintLengthsFor stints d) 1 1
      lap0.lapNumber lap0'.lapNumber j j' Nat.one_pos hnn hj hj'

/-- C1 witness: the three hypotheses hold for driver "A" of the concrete
scenario, and the conclusion follows by the theorem applied there. -/
theorem claim_C1_witness :
    ("A" ∈ ["A", "B"] ∧ (∀ L ∈ stintLengthsFor exampleStints "A", 0 < L) ∧
      maxLapNumber (exampleLapSource "A") ≤ (stintLengthsFor exampleStints "A").sum) ∧
    ((∃ pre post, prepare_driver_laps exampleLapSource ["A", "B"] exampleStints =
        pre ++ prepareOneDriver exampleLapSource exampleStints "A" ++ post) ∧
    (∀ lap ∈ prepareOneDriver exampleLapSource exampleStints "A",
      1 ≤ lap.lapNumber → ∃ i, lap.stint = some i) ∧
    (∀ lap ∈ prepareOneDriver exampleLapSource exampleStints "A",
      ∀ lap' ∈ prepareOneDriver exampleLapSource exampleStints "A",
      1 ≤ lap.lapNumber → lap.lapNumber ≤ lap'.lapNumber →
      ∀ i i', lap.stint = some i → lap'.stint = some i' → i ≤ i')) :=
  ⟨⟨by decide, by decide, by decide⟩,
    claim_C1 exampleLapSource ["A", "B"] exampleStints "A"
      (by decide) (by decide) (by decide)⟩

/-- C4: for every non-empty drivers sequence, the combined output length
is the sum over the drivers sequence of the number of laps the lap source
yields for each driver; no rows are dropped or deduplicated. -/
theorem claim_C4 (lapSource : String → List LapRecord) (drivers : List String)
    (stints : List StintRecord) (hne : drivers ≠ []) :
    (prepare_driver_laps lapSource drivers stints).length =
      (drivers.map fun d => (lapSource d).length).sum := by
  simp only [prepare_driver_laps, List.length_flatten, List.map_map,
    Function.comp_def, prepareOneDriver_length]

/-- C4 witness: the non-emptiness hypothesis holds for the concrete
scenario and the cardinality equation follows by the theorem there. -/
theorem claim_C4_witness :
    (["A", "B"] ≠ ([] : List String)) ∧
    (prepare_driver_laps exampleLapSource ["A", "B"] exampleStints).length =
      (["A", "B"].map fun d => (exampleLapSource d).length).sum :=
  ⟨by decide, claim_C4 exampleLapSource ["A", "B"] exampleStints (by decide)⟩

/-- C5: the combined output is exactly the concatenation of per-driver
blocks in input driver order, and within each driver's block the sequence
of lap numbers equals the sequence the lap source yielded (source order
preserved). -/
theorem claim_C5 (lapSource : String → List LapRecord) (drivers : List String)
    (stints : List StintRecord) :
    prepare_driver_laps lapSource drivers stints =
      (drivers.map fun d => prepareOneDriver lapSource stints d).flatten ∧
    ∀ d, (prepareOneDriver lapSource stints d).map (fun lap => lap.lapNumber) =
      (lapSource d).map fun lap => lap.lapNumber := by
  refine ⟨rfl, fun d => ?_⟩
  rw [prepareOneDriver_eq_map, List.map_map]
  congr 1
  funext lap
  exact applyStints_lapNumber _ _ _ _

/-- C2: the claim says `prepare_driver_laps` with an empty `drivers`
sequence does not raise and returns an empty combined result.  The code
instead reaches `pd.concat` at line 224 with an empty `driver_laps_list`,
and pandas raises `ValueError: No objects to concatenate`.  This theorem
evaluates the embedding with the fallible concat at that input: for every
lap source and stints frame, the call errors rather than returning an
empty frame. -/
theorem claim_C2 (lapSource : String → List LapRecord) (stints : List StintRecord) :
    prepare_driver_laps_checked lapSource [] stints =
      Except.error "No objects to concatenate" := rfl

/-- C3: on the spec's concrete scenario (driver "A": laps 1-5, stints
[3, 2]; driver "B": laps 1-3, one stint of length 3), `prepare_driver_laps`
assigns A's laps 1-3 stint 1 and laps 4-5 stint 2, B's laps 1-3 stint 1,
and returns 8 rows: A's 5 rows first, then B's 3 rows, each block in
ascending lap order. -/
theorem claim_C3 :
    prepare_driver_laps exampleLapSource ["A", "B"] exampleStints =
      [⟨"A", 1, some 1⟩, ⟨"A", 2, some 1⟩, ⟨"A", 3, some 1⟩,
       ⟨"A", 4, some 2⟩, ⟨"A", 5, some 2⟩,
       ⟨"B", 1, some 1⟩, ⟨"B", 2, some 1⟩, ⟨"B", 3, some 1⟩] ∧
    (prepare_driver_laps exampleLapSource ["A", "B"] exampleStints).length = 8 := by
  constructor
  · rfl
  · rfl

/-- C6: for positive stint lengths, the `[startLap, endLap]` ranges the
stint-assignment loop computes (starting, as in the code, at lap 1) are
pairwise disjoint — each range ends strictly before the next begins — and
occur in strictly increasing order of start lap. -/
theorem claim_C6 (lengths : List Nat) (hpos : ∀ L ∈ lengths, 0 < L) :
    List.Pairwise (fun r r' : Nat × Nat => r.2 < r'.1 ∧ r.1 < r'.1)
      (stintRanges lengths 1) :=
  stintRanges_pairwise lengths 1 Nat.one_pos hpos

/-- C6 witness: the positivity hypothesis holds for the stint lengths
[3, 2] and the range property follows by the theorem there. -/
theorem claim_C6_witness :
    (∀ L ∈ [3, 2], 0 < L) ∧
      List.Pairwise (fun r r' : Nat × Nat => r.2 < r'.1 ∧ r.1 < r'.1)
        (stintRanges [3, 2] 1) :=
  ⟨by decide, claim_C6 [3, 2] (by decide)⟩

/-- C7: when a driver's stint lengths sum to M and the driver's laps
start with an unset stint number, every output row of that driver whose
lap number exceeds M (in particular laps M+1..N when M < N) still has an
unset stint number, and nothing is raised (the embedding is total). -/
theorem claim_C7 (lapSource : String → List LapRecord) (drivers : List String)
    (stints : List StintRecord) (d : String)
    (h0 : ∀ lap ∈ lapSource d, lap.stint = none) :
    ∀ lap ∈ prepare_driver_laps lapSource drivers stints,
      lap.driver = d → (stintLengthsFor stints d).sum < lap.lapNumber →
      lap.stint = none := by
  intro lap hmem hdrv hM
  obtain ⟨d', hd', hblk⟩ := mem_prepare_driver_laps lapSource drivers stints lap hmem
  have hdd : d' = d := by
    rw [← hdrv]
    exact (prepareOneDriver_driver lapSource stints d' lap hblk).symm
  rw [hdd] at hblk
  rw [prepareOneDriver_eq_map] at hblk
  obtain ⟨lap0, hlap0, rfl⟩ := List.mem_map.mp hblk
  rw [applyStints_lapNumber] at hM
  have hM' : (stintLengthsFor stints d).sum < lap0.lapNumber := hM
  rw [applyStints_stint _ 1 1 _ Nat.one_pos]
  have hrw : ({ lap0 with driver := d } : LapRecord).lapNumber = lap0.lapNumber := rfl
  rw [hrw]
  rw [stintFor_none_of_ge (stintLengthsFor stints d) 1 1 lap0.lapNumber
    Nat.one_pos (by omega)]
  exact h0 lap0 hlap0

/-- C7 witness: driver "B" has laps 1-3 with unset stints, a single stint
record of length 2 (summing to M = 2 < 3 = N), and the theorem applied
there gives that B's rows numbered above 2 keep an unset stint number. -/
theorem claim_C7_witness :
    (∀ lap ∈ exampleLapSource "B", lap.stint = none) ∧
    (∀ lap ∈ prepare_driver_laps exampleLapSource ["B"] [⟨"B", 2⟩],
      lap.driver = "B" → (stintLengthsFor [⟨"B", 2⟩] "B").sum < lap.lapNumber →
      lap.stint = none) :=
  ⟨by decide, claim_C7 exampleLapSource ["B"] [⟨"B", 2⟩] "B" (by decide)⟩

/-- C8: for a driver with zero stint records whose source laps have unset
stint numbers, `prepare_driver_laps` raises nothing (the embedding is
total) and all of that driver's rows in the combined output keep an unset
stint number. -/
theorem claim_C8 (lapSource : String → List LapRecord) (drivers : List String)
    (stints : List StintRecord) (d : String)
    (h0 : ∀ lap ∈ lapSource d, lap.stint = none)
    (h1 : ∀ r ∈ stints, r.driver ≠ d) :
    ∀ lap ∈ prepare_driver_laps lapSource drivers stints,
      lap.driver = d → lap.stint = none := by
  intro lap hmem hdrv
  obtain ⟨d', hd', hblk⟩ := mem_prepare_driver_laps lapSource drivers stints lap hmem
  have hdd : d' = d := by
    rw [← hdrv]
    exact (prepareOneDriver_driver lapSource stints d' lap hblk).symm
  rw [hdd] at hblk
  rw [prepareOneDriver_eq_map] at hblk
  obtain ⟨lap0, hlap0, rfl⟩ := List.mem_map.mp hblk
  rw [stintLengthsFor_eq_nil stints d h1]
  simpa [applyStints] using h0 lap0 hlap0

/-- C8 witness: driver "B" appears in no stint record of `[⟨"A", 3⟩]`,
its source laps have unset stints, and the theorem applied there gives
that all of B's output rows keep an unset stint number. -/
theorem claim_C8_witness :
    ((∀ lap ∈ exampleLapSource "B", lap.stint = none) ∧
      (∀ r ∈ ([⟨"A", 3⟩] : List StintRecord), r.driver ≠ "B")) ∧
    (∀ lap ∈ prepare_driver_laps exampleLapSource ["B"] [⟨"A", 3⟩],
      lap.driver = "B" → lap.stint = none) :=
  ⟨⟨by decide, by decide⟩,
    claim_C8 exampleLapSource ["B"] [⟨"A", 3⟩] "B" (by decide) (by decide)⟩

/-- C9: `prepare_driver_laps` leaves the stints collection unchanged: in
the state-passing rendering, the stint records observable after the call
equal those passed in, while the lap output is that of the routine. -/
theorem claim_C9 (lapSource : String → List LapRecord) (drivers : List String)
    (stints : List StintRecord) :
    (prepare_driver_laps_tracked lapSource drivers stints).2 = stints ∧
    (prepare_driver_laps_tracked lapSource drivers stints).1 =
      prepare_driver_laps lapSource drivers stints := by
  unfold prepare_driver_laps_tracked
  rw [foldl_prepareStep]
  exact ⟨rfl, by simp [prepare_driver_laps]⟩

/-- C10: the data effect of `plot_lap_time_distributions` on its caller's
`driver_laps` frame: when the `LapTime (s)` column is absent on entry the
call adds it, computed as total seconds of the `LapTime` column, and this
is the frame the caller observes afterwards; when the column is already
present the frame is left unchanged.  The hypothesis says the frame's
other columns do not themselves contain a column named `LapTime (s)`. -/
theorem claim_C10 (f : DriverLapsFrame) (hwf : "LapTime (s)" ∉ f.otherColumns) :
    (f.lapTimeSeconds = none →
      plot_lap_time_distributions_data f =
        { f with lapTimeSeconds := some (f.lapTime.map Timedelta.total_seconds) }) ∧
    (∀ v, f.lapTimeSeconds = some v → plot_lap_time_distributions_data f = f) := by
  constructor
  · intro hnone
    have hmem : "LapTime (s)" ∉ f.columns := by
      unfold DriverLapsFrame.columns
      rw [hnone]
      simp [hwf]
    unfold plot_lap_time_distributions_data
    rw [if_pos hmem]
  · intro v hsome
    have hmem : "LapTime (s)" ∈ f.columns := by
      unfold DriverLapsFrame.columns
      rw [hsome]
      simp
    unfold plot_lap_time_distributions_data
    rw [if_neg (not_not_intro hmem)]

/-- C10 witness: the concrete frame has no `LapTime (s)` column among its
other columns, and the theorem applied there gives both branches of the
data effect. -/
theorem claim_C10_witness :
    ("LapTime (s)" ∉ exampleFrame.otherColumns) ∧
    ((exampleFrame.lapTimeSeconds = none →
      plot_lap_time_distributions_data exampleFrame =
        { exampleFrame with lapTimeSeconds := some (exampleFrame.lapTime.map Timedelta.total_seconds) }) ∧
    (∀ v, exampleFrame.lapTimeSeconds = some v →
      plot_lap_time_distributions_data exampleFrame = exampleFrame)) :=
  ⟨by decide, claim_C10 exampleFrame (by decide)⟩

end FastF1RaceUtil
